import Mathlib

/-!
Shallow embedding of the yt-extension core library
(src/lib/youtube-api.js, src/lib/playlist-stats.js, src/lib/save-reorder.js,
src/lib/category-map.js) and proofs of the specification claims.

JavaScript objects used as string-keyed dictionaries are modelled as
association lists with overwrite-on-assign semantics (`jsSet`) and
first-match lookup (`jsGet`); iteration order of `Object.entries` /
`Object.values` is insertion order, which the association list preserves.
JavaScript numbers are modelled as `Nat` for counts and `ℚ` for ratios.
-/

namespace YtExt

/-- Lookup in a JS-object association list (`obj[k]`, `undefined` ↦ `none`). -/
def jsGet {α : Type} (l : List (String × α)) (k : String) : Option α :=
  match l with
  | [] => none
  | (k', v) :: rest => if k' = k then some v else jsGet rest k

/-- Assignment `obj[k] = v`: overwrite the value in place if the key exists,
otherwise append the new key at the end (JS insertion order). -/
def jsSet {α : Type} (l : List (String × α)) (k : String) (v : α) : List (String × α) :=
  match l with
  | [] => [(k, v)]
  | (k', v') :: rest => if k' = k then (k', v) :: rest else (k', v') :: jsSet rest k v

/-- `obj[k] || d` for a dictionary of numbers (`undefined` is falsy, counts
stored in these maps are positive, so only absence falls back). -/
def jsGetD {α : Type} (l : List (String × α)) (k : String) (d : α) : α :=
  (jsGet l k).getD d

/-- JS string truthiness fallback `s || d` where `s : Option String` covers
`null`/`undefined`; the empty string is falsy as well. -/
def jsOrStr (s : Option String) (d : String) : String :=
  match s with
  | none => d
  | some v => if v = "" then d else v

/-- Sum of the values of a string-keyed dictionary of counts. -/
def sumVals (l : List (String × Nat)) : Nat :=
  (l.map Prod.snd).sum

/-- `CATEGORY_MAP` from src/lib/category-map.js. -/
def CATEGORY_MAP : List (String × String) :=
  [("1", "Film & Animation"),
   ("2", "Autos & Vehicles"),
   ("10", "Music"),
   ("15", "Pets & Animals"),
   ("17", "Sports"),
   ("18", "Short Movies"),
   ("19", "Travel & Events"),
   ("20", "Gaming"),
   ("21", "Videoblogging"),
   ("22", "People & Blogs"),
   ("23", "Comedy"),
   ("24", "Entertainment"),
   ("25", "News & Politics"),
   ("26", "Howto & Style"),
   ("27", "Education"),
   ("28", "Science & Technology"),
   ("29", "Nonprofits & Activism"),
   ("30", "Movies"),
   ("31", "Anime/Animation"),
   ("32", "Action/Adventure"),
   ("33", "Classics"),
   ("34", "Comedy"),
   ("35", "Documentary"),
   ("36", "Drama"),
   ("37", "Family"),
   ("38", "Foreign"),
   ("39", "Horror"),
   ("40", "Sci-Fi/Fantasy"),
   ("41", "Thriller"),
   ("42", "Shorts"),
   ("43", "Shows"),
   ("44", "Trailers")]

/-- `getCategoryLabel` from src/lib/category-map.js:
`CATEGORY_MAP[categoryId] || "Unknown"`. -/
def getCategoryLabel (categoryId : String) : String :=
  (jsGet CATEGORY_MAP categoryId).getD "Unknown"

/-- `getCategoryLabel` applied to a possibly-null ID (`CATEGORY_MAP[null]` is
`undefined`, hence `"Unknown"`). -/
def getCategoryLabelOpt (categoryId : Option String) : String :=
  match categoryId with
  | none => "Unknown"
  | some cid => getCategoryLabel cid

/-- One entry of a `{ videoId → {categoryId, category, title, …} }` map
(the values produced by `getPlaylistVideoCategories` and friends).
`categoryId` is `none` for JS `null`. -/
structure VideoDetail where
  categoryId : Option String
  category : String
  title : String
  channelTitle : String
  thumbnail : String
  deriving DecidableEq, Repr

/-- The record returned by `computePlaylistStats` (src/lib/playlist-stats.js).
`dominantCategory` / `dominantCategoryId` are `none` for JS `null`. -/
structure PlaylistStats where
  totalVideos : Nat
  categoryFrequency : List (String × Nat)
  dominantCategory : Option String
  dominantCategoryId : Option String
  dominantCount : Nat
  dominantRatio : ℚ
  uniqueCategories : Nat
  focusLabel : String
  deriving DecidableEq, Repr

/-- Loop body of the frequency pass of `computePlaylistStats` (and of
`getCategoryDistribution`): `freq[cid] = (freq[cid] || 0) + 1` with
`cid = v.categoryId || "unknown"`. -/
def countFold (f : List (String × Nat)) (v : VideoDetail) : List (String × Nat) :=
  let cid := jsOrStr v.categoryId "unknown"
  jsSet f cid (jsGetD f cid 0 + 1)

/-- Loop body of the readable-frequency pass of `computePlaylistStats`:
`categoryFrequency[label] = (categoryFrequency[label] || 0) + count` with
`label = getCategoryLabel(cid)`. -/
def labelFold (cf : List (String × Nat)) (p : String × Nat) : List (String × Nat) :=
  jsSet cf (getCategoryLabel p.1) (jsGetD cf (getCategoryLabel p.1) 0 + p.2)

/-- Inner loop body of `computeGlobalStats`:
`globalCategoryFreq[label] = (globalCategoryFreq[label] || 0) + count`. -/
def sumFold (g : List (String × Nat)) (q : String × Nat) : List (String × Nat) :=
  jsSet g q.1 (jsGetD g q.1 0 + q.2)

/-- The dominant-category scan of `computePlaylistStats`: iterate the
frequency entries in insertion order, keeping the first strictly greater
count. -/
def findDominant (freq : List (String × Nat)) : Option String × Nat :=
  freq.foldl
    (fun acc p => if p.2 > acc.2 then (some p.1, p.2) else acc)
    (none, 0)

/-- `computePlaylistStats` from src/lib/playlist-stats.js. The input is
`Object.values(videoCategories)` in insertion order. -/
def computePlaylistStats (videos : List VideoDetail) : PlaylistStats :=
  let totalVideos := videos.length
  if totalVideos = 0 then
    { totalVideos := 0
      categoryFrequency := []
      dominantCategory := none
      dominantCategoryId := none
      dominantCount := 0
      dominantRatio := 0
      uniqueCategories := 0
      focusLabel := "Empty" }
  else
    let freq := videos.foldl countFold []
    let dom := findDominant freq
    let dominantCategoryId := dom.1
    let dominantCount := dom.2
    let dominantRatio : ℚ := (dominantCount : ℚ) / (totalVideos : ℚ)
    let dominantCategory := getCategoryLabelOpt dominantCategoryId
    let uniqueCategories := freq.length
    let categoryFrequency := freq.foldl labelFold []
    let focusLabel :=
      if dominantRatio ≥ (8 : ℚ) / 10 then "Highly Focused"
      else if dominantRatio ≥ (5 : ℚ) / 10 then "Focused"
      else "Mixed"
    { totalVideos := totalVideos
      categoryFrequency := categoryFrequency
      dominantCategory := some dominantCategory
      dominantCategoryId := dominantCategoryId
      dominantCount := dominantCount
      dominantRatio := dominantRatio
      uniqueCategories := uniqueCategories
      focusLabel := focusLabel }

/-- `getCategoryDistribution` from src/lib/playlist-stats.js: classification
ID → ratio for a single collection. -/
def getCategoryDistribution (videos : List VideoDetail) : List (String × ℚ) :=
  let total := videos.length
  if total = 0 then []
  else
    let freq := videos.foldl countFold []
    freq.map (fun p => (p.1, (p.2 : ℚ) / (total : ℚ)))

/-- Stable insertion step: place `x` before the first `y` with `le x y`.
With a non-strict `le` this keeps an earlier element ahead of later
equal-key elements, so the resulting sort is stable. -/
def stableInsertBy {α : Type} (le : α → α → Bool) (x : α) : List α → List α
  | [] => [x]
  | y :: ys => if le x y then x :: y :: ys else y :: stableInsertBy le x ys

/-- Stable sort, modelling JS `Array.prototype.sort`, which ECMAScript
(ES2019+) requires to be stable and consistent with the comparator. A
comparator `(a, b) => keyOf b - keyOf a` sorts descending by `keyOf`; any
stable sort for that total preorder produces the same list, so insertion
sort is a faithful model. -/
def stableSortBy {α : Type} (le : α → α → Bool) : List α → List α
  | [] => []
  | x :: xs => stableInsertBy le x (stableSortBy le xs)

/-- The record returned by `computeGlobalStats`. -/
structure GlobalStats where
  totalPlaylists : Nat
  totalVideos : Nat
  categoryDistribution : List (String × Nat)
  deriving DecidableEq, Repr

/-- `computeGlobalStats` from src/lib/playlist-stats.js. The input is
`Object.entries(allPlaylistStats)` in insertion order; the loop ignores
the playlist-ID key. -/
def computeGlobalStats (allPlaylistStats : List (String × PlaylistStats)) : GlobalStats :=
  let acc := allPlaylistStats.foldl
    (fun (acc : Nat × Nat × List (String × Nat)) p =>
      let stats := p.2
      let freq := stats.categoryFrequency.foldl sumFold acc.2.2
      (acc.1 + 1, acc.2.1 + stats.totalVideos, freq))
    (0, 0, [])
  let sortedCategories := stableSortBy (fun a b => b.2 ≤ a.2) acc.2.2
  { totalPlaylists := acc.1
    totalVideos := acc.2.1
    categoryDistribution := sortedCategories }

/-- One value of the `playlistData` map passed to `reorderPlaylists`
(src/lib/save-reorder.js). -/
structure PlaylistEntry where
  title : String
  stats : PlaylistStats
  categoryDistribution : List (String × ℚ)
  deriving DecidableEq, Repr

/-- One element of the list returned by `reorderPlaylists`. -/
structure ScoredPlaylist where
  playlistId : String
  title : String
  score : Nat
  dominantCategory : Option String
  dominantRatio : ℚ
  focusLabel : String
  totalVideos : Nat
  deriving DecidableEq, Repr

/-- The loop body of `reorderPlaylists`: score one `(playlistId, data)`
entry. `dominantBonus` is `1` when the playlist's `dominantCategoryId`
strictly equals the video's category ID, else `0`; the category-match
term is commented out in the source, so `score = dominantBonus`. -/
def scoreEntry (videoCategoryId : String) (p : String × PlaylistEntry) : ScoredPlaylist :=
  let dominantBonus : Nat :=
    if p.2.stats.dominantCategoryId = some videoCategoryId then 1 else 0
  let score := dominantBonus
  { playlistId := p.1
    title := p.2.title
    score := score
    dominantCategory := p.2.stats.dominantCategory
    dominantRatio := p.2.stats.dominantRatio
    focusLabel := p.2.stats.focusLabel
    totalVideos := p.2.stats.totalVideos }

/-- `reorderPlaylists` from src/lib/save-reorder.js: score every entry of
`Object.entries(playlistData)` in insertion order, then
`scored.sort((a, b) => b.score - a.score)` (stable, descending by score;
no secondary key). -/
def reorderPlaylists (videoCategoryId : String)
    (playlistData : List (String × PlaylistEntry)) : List ScoredPlaylist :=
  let scored := playlistData.map (scoreEntry videoCategoryId)
  stableSortBy (fun a b => b.score ≤ a.score) scored

/-- `playlistContainsCategory` from src/lib/save-reorder.js. -/
def playlistContainsCategory (videoCategoryId : String)
    (categoryDistribution : List (String × ℚ)) : Bool :=
  ((jsGet categoryDistribution videoCategoryId).getD 0) > 0

/-- One entry of the map returned by `getVideoCategoryIds`
(src/lib/youtube-api.js): the per-video detail resolved from the remote
`videos.list` response. `categoryId` here is the raw JS string from the
API payload. -/
structure FetchedInfo where
  categoryId : String
  title : String
  channelTitle : String
  thumbnail : String
  deriving DecidableEq, Repr

/-- The record returned by `getPlaylistVideoCategoriesDelta`. -/
structure DeltaResult where
  videos : List (String × VideoDetail)
  apiCalls : Nat
  deriving DecidableEq, Repr

/-- The merge step of `getPlaylistVideoCategoriesDelta` for one video ID:
reuse the cached entry when present, otherwise build an entry from the
freshly resolved details (`info?.categoryId || null`,
`info?.categoryId ? getCategoryLabel(info.categoryId) : "Unknown"`,
string fields defaulting to `""`). `details` is the resolved
`newDetails` map: `details vid` is what `newDetails[vid]` holds for a
non-cached `vid`. -/
def deltaEntry (cachedVideos : List (String × VideoDetail))
    (details : String → Option FetchedInfo) (vid : String) : VideoDetail :=
  match jsGet cachedVideos vid with
  | some e => e
  | none =>
    let info := details vid
    { categoryId :=
        match info with
        | none => none
        | some i => if i.categoryId = "" then none else some i.categoryId
      category :=
        match info with
        | none => "Unknown"
        | some i => if i.categoryId = "" then "Unknown" else getCategoryLabel i.categoryId
      title := jsOrStr (info.map (fun i => i.title)) ""
      channelTitle := jsOrStr (info.map (fun i => i.channelTitle)) ""
      thumbnail := jsOrStr (info.map (fun i => i.thumbnail)) "" }

/-- `getPlaylistVideoCategoriesDelta` from src/lib/youtube-api.js, with the
two remote interactions abstracted: `currentIds` is the list returned by
`getPlaylistVideoIds` (listing order), and `details` is the oracle for
`getVideoCategoryIds` on the new IDs (IDs the API does not return map to
`none`). `apiCalls = Math.ceil(newIds.length / 50)` when any ID is
uncached, else `0`, exactly as the source computes it. -/
def getPlaylistVideoCategoriesDelta (currentIds : List String)
    (cachedVideos : List (String × VideoDetail))
    (details : String → Option FetchedInfo) : DeltaResult :=
  let newIds := currentIds.filter (fun vid => (jsGet cachedVideos vid).isNone)
  let apiCalls := if 0 < newIds.length then (newIds.length + 49) / 50 else 0
  let result := currentIds.foldl
    (fun r vid => jsSet r vid (deltaEntry cachedVideos details vid))
    []
  { videos := result, apiCalls := apiCalls }

/-- Quota policy constant from src/lib/youtube-api.js. -/
def DAILY_LIMIT : Nat := 10000

/-- Quota policy constant from src/lib/youtube-api.js: block when within
this many calls of the limit. -/
def SAFETY_MARGIN : Nat := 500

/-- The stored `apiUsage` counter: `{ date, count }`. -/
structure ApiUsage where
  date : String
  count : Nat
  deriving DecidableEq, Repr

/-- `getApiUsage` from src/lib/youtube-api.js: read the stored counter
(`none` when `chrome.storage.local` has no entry), defaulting to
`{ date: todayKey(), count: 0 }`, and resetting when the stored date is
not today. `today` stands for `todayKey()`. -/
def getApiUsage (today : String) (stored : Option ApiUsage) : ApiUsage :=
  let usage := stored.getD { date := today, count := 0 }
  if usage.date ≠ today then { date := today, count := 0 }
  else usage

/-- `incrementApiUsage(n)` from src/lib/youtube-api.js: read via
`getApiUsage`, add `n`, stamp today's date, store. -/
def incrementApiUsage (today : String) (n : Nat) (stored : Option ApiUsage) : Option ApiUsage :=
  let usage := getApiUsage today stored
  some { date := today, count := usage.count + n }

/-- The error classes `apiCall` can raise. -/
inductive ApiError where
  | missingCredentials
  | quotaExceeded (used limit : Nat)
  | upstream (status : Nat)
  deriving DecidableEq, Repr

/-- Outcome of the `fetch` inside `apiCall`, abstracting the network:
either `resp.ok` or an HTTP error status. -/
inductive FetchOutcome where
  | ok
  | httpError (status : Nat)
  deriving DecidableEq, Repr

/-- What one invocation of `apiCall` produces: the thrown-or-returned
result, the stored usage counter afterwards, and how many network
requests (`fetch` calls) were performed. -/
structure ApiCallOutcome where
  result : Except ApiError Unit
  stored : Option ApiUsage
  networkCalls : Nat
  deriving Repr

/-- `apiCall` from src/lib/youtube-api.js, with the URL construction and
response payload elided (they do not affect control flow): throw
`missingCredentials` when neither key nor token is supplied; read the
usage counter and throw `quotaExceeded` without fetching when
`usage.count >= DAILY_LIMIT - SAFETY_MARGIN`; otherwise fetch once,
throwing `upstream` on a non-ok response, and on success increment the
counter by 1. -/
def apiCall (today : String) (hasApiKey hasToken : Bool) (fetch : FetchOutcome)
    (stored : Option ApiUsage) : ApiCallOutcome :=
  if !hasApiKey && !hasToken then
    { result := Except.error ApiError.missingCredentials, stored := stored, networkCalls := 0 }
  else
    let usage := getApiUsage today stored
    if usage.count ≥ DAILY_LIMIT - SAFETY_MARGIN then
      { result := Except.error (ApiError.quotaExceeded usage.count DAILY_LIMIT)
        stored := stored
        networkCalls := 0 }
    else
      match fetch with
      | FetchOutcome.httpError status =>
        { result := Except.error (ApiError.upstream status), stored := stored, networkCalls := 1 }
      | FetchOutcome.ok =>
        { result := Except.ok ()
          stored := incrementApiUsage today 1 stored
          networkCalls := 1 }

/-- A sequence of `apiCall` invocations on the same day, threading the
stored usage counter; each call is described by its credential flags and
fetch outcome. -/
def runCalls (today : String) (calls : List (Bool × Bool × FetchOutcome))
    (stored : Option ApiUsage) : Option ApiUsage :=
  calls.foldl (fun st c => (apiCall today c.1 c.2.1 c.2.2 st).stored) stored

/-! ### Lemmas about the JS-object association-list operations -/

theorem jsGet_jsSet_self {α : Type} (l : List (String × α)) (k : String) (v : α) :
    jsGet (jsSet l k v) k = some v := by
  induction l with
  | nil => simp [jsSet, jsGet]
  | cons p rest ih =>
    obtain ⟨k', v'⟩ := p
    by_cases h : k' = k
    · simp [jsSet, jsGet, h]
    · simp [jsSet, jsGet, h, ih]

theorem jsGet_jsSet_ne {α : Type} (l : List (String × α)) (k k' : String) (v : α)
    (h : k ≠ k') : jsGet (jsSet l k v) k' = jsGet l k' := by
  induction l with
  | nil => simp [jsSet, jsGet, h]
  | cons p rest ih =>
    obtain ⟨k₀, v₀⟩ := p
    by_cases h0 : k₀ = k
    · subst h0
      simp [jsSet, jsGet, h]
    · simp only [jsSet, if_neg h0, jsGet]
      by_cases h1 : k₀ = k'
      · simp [h1]
      · simp [h1, ih]

theorem sumVals_nil : sumVals ([] : List (String × Nat)) = 0 := rfl

theorem sumVals_cons (p : String × Nat) (l : List (String × Nat)) :
    sumVals (p :: l) = p.2 + sumVals l := by
  simp [sumVals]

theorem sumVals_jsSet_add (l : List (String × Nat)) (k : String) (n : Nat) :
    sumVals (jsSet l k (jsGetD l k 0 + n)) = sumVals l + n := by
  induction l with
  | nil => simp [jsSet, jsGetD, jsGet, sumVals]
  | cons p rest ih =>
    obtain ⟨k', v'⟩ := p
    by_cases h : k' = k
    · subst h
      have hget : jsGetD ((k', v') :: rest) k' 0 = v' := by simp [jsGetD, jsGet]
      rw [hget]
      have hset : jsSet ((k', v') :: rest) k' (v' + n) = (k', v' + n) :: rest := by
        simp [jsSet]
      rw [hset, sumVals_cons, sumVals_cons]
      omega
    · have hget : jsGetD ((k', v') :: rest) k 0 = jsGetD rest k 0 := by
        simp [jsGetD, jsGet, h]
      simp only [jsSet, if_neg h, sumVals_cons, hget, ih]
      omega

theorem sumVals_foldl_sumFold (entries : List (String × Nat)) (g0 : List (String × Nat)) :
    sumVals (entries.foldl sumFold g0) = sumVals g0 + sumVals entries := by
  induction entries generalizing g0 with
  | nil => simp [sumVals]
  | cons q rest ih =>
    rw [List.foldl_cons, ih]
    simp only [sumFold, sumVals_jsSet_add, sumVals_cons]
    omega

theorem sumVals_foldl_labelFold (entries : List (String × Nat)) (g0 : List (String × Nat)) :
    sumVals (entries.foldl labelFold g0) = sumVals g0 + sumVals entries := by
  induction entries generalizing g0 with
  | nil => simp [sumVals]
  | cons q rest ih =>
    rw [List.foldl_cons, ih]
    simp only [labelFold, sumVals_jsSet_add, sumVals_cons]
    omega

theorem sumVals_foldl_countFold (videos : List VideoDetail) (f0 : List (String × Nat)) :
    sumVals (videos.foldl countFold f0) = sumVals f0 + videos.length := by
  induction videos generalizing f0 with
  | nil => simp
  | cons v rest ih =>
    rw [List.foldl_cons, ih]
    simp only [countFold, sumVals_jsSet_add, List.length_cons]
    omega

theorem findDominant_foldl_le (freq : List (String × Nat)) (acc : Option String × Nat) :
    (freq.foldl (fun acc p => if p.2 > acc.2 then (some p.1, p.2) else acc) acc).2 ≤
      acc.2 + sumVals freq := by
  induction freq generalizing acc with
  | nil => simp [sumVals]
  | cons p rest ih =>
    rw [List.foldl_cons]
    calc (rest.foldl (fun acc p => if p.2 > acc.2 then (some p.1, p.2) else acc)
            (if p.2 > acc.2 then (some p.1, p.2) else acc)).2
        ≤ (if p.2 > acc.2 then ((some p.1 : Option String), p.2) else acc).2 + sumVals rest :=
          ih _
      _ ≤ acc.2 + sumVals (p :: rest) := by
          rw [sumVals_cons]
          split <;> omega

theorem findDominant_le_sumVals (freq : List (String × Nat)) :
    (findDominant freq).2 ≤ sumVals freq := by
  have h := findDominant_foldl_le freq (none, 0)
  simpa [findDominant] using h

theorem jsGet_foldl_jsSet {α : Type} (ids : List String) (f : String → α)
    (r0 : List (String × α)) (k : String) :
    jsGet (ids.foldl (fun r vid => jsSet r vid (f vid)) r0) k =
      if k ∈ ids then some (f k) else jsGet r0 k := by
  induction ids generalizing r0 with
  | nil => simp
  | cons x rest ih =>
    rw [List.foldl_cons, ih]
    by_cases hk : k ∈ rest
    · simp [hk, List.mem_cons]
    · by_cases hx : x = k
      · subst hx
        simp [hk, jsGet_jsSet_self]
      · have hne : ¬ k ∈ x :: rest := by
          intro hmem
          rcases List.mem_cons.mp hmem with hm | hm
          · exact hx hm.symm
          · exact hk hm
        rw [if_neg hk, if_neg hne, jsGet_jsSet_ne _ _ _ _ hx]

/-! ### Lemmas about the stable sort -/

theorem mem_stableInsertBy {α : Type} (le : α → α → Bool) (x : α) (l : List α) (z : α) :
    z ∈ stableInsertBy le x l ↔ z = x ∨ z ∈ l := by
  induction l with
  | nil => simp [stableInsertBy]
  | cons y ys ih =>
    simp only [stableInsertBy]
    split
    · simp only [List.mem_cons]
    · simp only [List.mem_cons, ih]
      tauto

theorem pairwise_stableInsertBy {α : Type} (key : α → Nat) (x : α) (l : List α)
    (h : l.Pairwise (fun a b => key b ≤ key a)) :
    (stableInsertBy (fun a b => decide (key b ≤ key a)) x l).Pairwise
      (fun a b => key b ≤ key a) := by
  induction l with
  | nil => simp [stableInsertBy]
  | cons y ys ih =>
    rw [List.pairwise_cons] at h
    obtain ⟨h1, h2⟩ := h
    simp only [stableInsertBy]
    by_cases hxy : key y ≤ key x
    · rw [if_pos (by simpa using hxy)]
      rw [List.pairwise_cons]
      constructor
      · intro z hz
        rcases List.mem_cons.mp hz with hz | hz
        · subst hz; omega
        · have := h1 z hz
          omega
      · rw [List.pairwise_cons]
        exact ⟨h1, h2⟩
    · rw [if_neg (by simpa using hxy)]
      rw [List.pairwise_cons]
      constructor
      · intro z hz
        rcases (mem_stableInsertBy _ _ _ _).mp hz with hz | hz
        · subst hz; omega
        · exact h1 z hz
      · exact ih h2

theorem pairwise_stableSortBy {α : Type} (key : α → Nat) (l : List α) :
    (stableSortBy (fun a b => decide (key b ≤ key a)) l).Pairwise
      (fun a b => key b ≤ key a) := by
  induction l with
  | nil => simp [stableSortBy]
  | cons x xs ih =>
    simp only [stableSortBy]
    exact pairwise_stableInsertBy key x _ ih

theorem stableInsertBy_append_of_not_le {α : Type} (le : α → α → Bool) (x : α)
    (as bs : List α) (h : ∀ a ∈ as, le x a = false) :
    stableInsertBy le x (as ++ bs) = as ++ stableInsertBy le x bs := by
  induction as with
  | nil => rfl
  | cons a as ih =>
    have ha : le x a = false := h a (List.mem_cons_self a as)
    simp only [List.cons_append, stableInsertBy, ha]
    simp only [Bool.false_eq_true, if_false, List.cons.injEq, true_and]
    exact ih (fun a' ha' => h a' (List.mem_cons_of_mem _ ha'))

theorem stableSortBy_binary {α : Type} (key : α → Nat) (l : List α)
    (h : ∀ s ∈ l, key s = 1 ∨ key s = 0) :
    stableSortBy (fun a b => decide (key b ≤ key a)) l =
      l.filter (fun s => key s == 1) ++ l.filter (fun s => key s == 0) := by
  induction l with
  | nil => rfl
  | cons s l ih =>
    have hs := h s (List.mem_cons_self s l)
    have hl : ∀ z ∈ l, key z = 1 ∨ key z = 0 :=
      fun z hz => h z (List.mem_cons_of_mem _ hz)
    have hones : ∀ z ∈ l.filter (fun s => key s == 1), key z = 1 := by
      intro z hz
      have := (List.mem_filter.mp hz).2
      simpa using this
    have hzeros : ∀ z ∈ l.filter (fun s => key s == 0), key z = 0 := by
      intro z hz
      have := (List.mem_filter.mp hz).2
      simpa using this
    simp only [stableSortBy]
    rw [ih hl]
    rcases hs with h1 | h0
    · have hfront :
          stableInsertBy (fun a b => decide (key b ≤ key a)) s
            (l.filter (fun s => key s == 1) ++ l.filter (fun s => key s == 0)) =
          s :: (l.filter (fun s => key s == 1) ++ l.filter (fun s => key s == 0)) := by
        cases hcase : l.filter (fun s => key s == 1) ++ l.filter (fun s => key s == 0) with
        | nil => simp [stableInsertBy]
        | cons z zs =>
          have hz : z ∈ l.filter (fun s => key s == 1) ++ l.filter (fun s => key s == 0) := by
            rw [hcase]; exact List.mem_cons_self z zs
          have hzle : key z ≤ key s := by
            rcases List.mem_append.mp hz with hz1 | hz0
            · have := hones z hz1; omega
            · have := hzeros z hz0; omega
          simp [stableInsertBy, hzle]
      rw [hfront]
      have hf1 : (s :: l).filter (fun s => key s == 1) =
          s :: l.filter (fun s => key s == 1) := by
        simp [List.filter_cons, h1]
      have hf0 : (s :: l).filter (fun s => key s == 0) =
          l.filter (fun s => key s == 0) := by
        simp [List.filter_cons, h1]
      rw [hf1, hf0]
      simp
    · rw [stableInsertBy_append_of_not_le _ _ _ _
        (fun a ha => by
          have := hones a ha
          simp [this, h0])]
      have hins : stableInsertBy (fun a b => decide (key b ≤ key a)) s
          (l.filter (fun s => key s == 0)) = s :: l.filter (fun s => key s == 0) := by
        cases hcase : l.filter (fun s => key s == 0) with
        | nil => simp [stableInsertBy]
        | cons z zs =>
          have hz : z ∈ l.filter (fun s => key s == 0) := by
            rw [hcase]; exact List.mem_cons_self z zs
          have := hzeros z hz
          simp [stableInsertBy, this, h0]
      rw [hins]
      have hf1 : (s :: l).filter (fun s => key s == 1) =
          l.filter (fun s => key s == 1) := by
        simp [List.filter_cons, h0]
      have hf0 : (s :: l).filter (fun s => key s == 0) =
          s :: l.filter (fun s => key s == 0) := by
        simp [List.filter_cons, h0]
      rw [hf1, hf0]

/-! ### Claim theorems about the statistics aggregator -/

/-- Claim C8: `computePlaylistStats` applied to the empty item set returns
the exact `"Empty"` sentinel record — `totalVideos 0`, empty frequency
table, dominant category `null`, dominant count `0`, `dominantRatio 0`,
`uniqueCategories 0`, `focusLabel "Empty"` — taking the early-return
branch, so no division by zero is performed. -/
theorem computePlaylistStats_empty_sentinel :
    computePlaylistStats [] =
      { totalVideos := 0
        categoryFrequency := []
        dominantCategory := none
        dominantCategoryId := none
        dominantCount := 0
        dominantRatio := 0
        uniqueCategories := 0
        focusLabel := "Empty" } := rfl

/-- Claim C4: for every input mapping of items to category records,
`computePlaylistStats` returns a `dominantRatio` in the closed interval
`[0, 1]`, and the values of the returned `categoryFrequency` table sum
exactly to the returned `totalVideos` count. -/
theorem computePlaylistStats_ratio_sum (videos : List VideoDetail) :
    0 ≤ (computePlaylistStats videos).dominantRatio ∧
    (computePlaylistStats videos).dominantRatio ≤ 1 ∧
    sumVals (computePlaylistStats videos).categoryFrequency =
      (computePlaylistStats videos).totalVideos := by
  by_cases h : videos.length = 0
  · simp only [computePlaylistStats, if_pos h]
    exact ⟨le_refl 0, by norm_num, rfl⟩
  · simp only [computePlaylistStats, if_neg h]
    have hc : (findDominant (videos.foldl countFold [])).2 ≤ videos.length := by
      have h1 := findDominant_le_sumVals (videos.foldl countFold [])
      rwa [sumVals_foldl_countFold, sumVals_nil, Nat.zero_add] at h1
    have hpos : (0 : ℚ) < (videos.length : ℚ) := by
      exact_mod_cast Nat.pos_of_ne_zero h
    refine ⟨div_nonneg (Nat.cast_nonneg _) (Nat.cast_nonneg _), ?_, ?_⟩
    · rw [div_le_one hpos]
      exact_mod_cast hc
    · rw [sumVals_foldl_labelFold, sumVals_foldl_countFold, sumVals_nil]
      omega

/-- Claim C7: for every non-empty input item set, the focus label returned
by `computePlaylistStats` is `"Highly Focused"` exactly when the dominant
ratio is at least `0.8`, `"Focused"` exactly when the dominant ratio is at
least `0.5` and below `0.8`, and `"Mixed"` exactly when the dominant ratio
is below `0.5`; both boundaries are inclusive at the lower edge. -/
theorem computePlaylistStats_focusLabel (videos : List VideoDetail) (h : videos ≠ []) :
    ((computePlaylistStats videos).focusLabel = "Highly Focused" ↔
      (8 : ℚ) / 10 ≤ (computePlaylistStats videos).dominantRatio) ∧
    ((computePlaylistStats videos).focusLabel = "Focused" ↔
      (5 : ℚ) / 10 ≤ (computePlaylistStats videos).dominantRatio ∧
        (computePlaylistStats videos).dominantRatio < (8 : ℚ) / 10) ∧
    ((computePlaylistStats videos).focusLabel = "Mixed" ↔
      (computePlaylistStats videos).dominantRatio < (5 : ℚ) / 10) := by
  have hn : ¬ videos.length = 0 := by
    simpa [List.length_eq_zero] using h
  simp only [computePlaylistStats, if_neg hn]
  generalize ((findDominant (videos.foldl countFold [])).2 : ℚ) / (videos.length : ℚ) = r
  split_ifs with h8 h5
  · exact ⟨⟨fun _ => h8, fun _ => rfl⟩,
      ⟨fun hc => absurd hc (by decide), fun hc => absurd hc.2 (not_lt.mpr h8)⟩,
      ⟨fun hc => absurd hc (by decide),
       fun hlt => absurd hlt (not_lt.mpr (le_trans (by norm_num) h8))⟩⟩
  · exact ⟨⟨fun hc => absurd hc (by decide), fun hle => absurd hle h8⟩,
      ⟨fun _ => ⟨h5, not_le.mp h8⟩, fun _ => rfl⟩,
      ⟨fun hc => absurd hc (by decide), fun hlt => absurd h5 (not_le.mpr hlt)⟩⟩
  · exact ⟨⟨fun hc => absurd hc (by decide),
       fun hle => absurd (le_trans (by norm_num) hle) h8⟩,
      ⟨fun hc => absurd hc (by decide), fun hc => absurd hc.1 h5⟩,
      ⟨fun _ => not_le.mp h5, fun _ => rfl⟩⟩

/-- Claim C7 witness: a single-video playlist has dominant ratio `1 ≥ 0.8`
and focus label `"Highly Focused"`. -/
theorem computePlaylistStats_focusLabel_witness :
    (computePlaylistStats
        [{ categoryId := some "10", category := "Music", title := "t",
           channelTitle := "c", thumbnail := "u" }]).focusLabel = "Highly Focused" :=
  (computePlaylistStats_focusLabel
      [{ categoryId := some "10", category := "Music", title := "t",
         channelTitle := "c", thumbnail := "u" }]
      (by decide)).1.mpr (by norm_num [computePlaylistStats, countFold, findDominant,
        jsOrStr, jsSet, jsGetD, jsGet])

/-- Two videos whose distinct raw category IDs `"23"` and `"34"` both
resolve to the label `"Comedy"`. -/
def comedyVideos : List VideoDetail :=
  [{ categoryId := some "23", category := "Comedy", title := "a",
     channelTitle := "", thumbnail := "" },
   { categoryId := some "34", category := "Comedy", title := "b",
     channelTitle := "", thumbnail := "" }]

/-- Claim C10: `uniqueCategories` counts distinct raw category IDs while
`categoryFrequency` is keyed by resolved labels; the IDs `"23"` and `"34"`
both map to `"Comedy"` and unmapped IDs map to `"Unknown"`, so on
`comedyVideos` the stats have `uniqueCategories = 2` but only one
`categoryFrequency` entry, whose values still sum to `totalVideos`. -/
theorem uniqueCategories_exceeds_labels :
    getCategoryLabel "23" = "Comedy" ∧
    getCategoryLabel "34" = "Comedy" ∧
    getCategoryLabel "99" = "Unknown" ∧
    (computePlaylistStats comedyVideos).uniqueCategories = 2 ∧
    (computePlaylistStats comedyVideos).categoryFrequency = [("Comedy", 2)] ∧
    (computePlaylistStats comedyVideos).categoryFrequency.length <
      (computePlaylistStats comedyVideos).uniqueCategories ∧
    sumVals (computePlaylistStats comedyVideos).categoryFrequency =
      (computePlaylistStats comedyVideos).totalVideos := by
  refine ⟨rfl, rfl, rfl, ?_, ?_, ?_, ?_⟩ <;> decide

/-! ### Claim theorems about the global aggregator and the ranker -/

theorem globalFold_counts (all : List (String × PlaylistStats))
    (acc : Nat × Nat × List (String × Nat)) :
    (all.foldl (fun acc p => (acc.1 + 1, acc.2.1 + p.2.totalVideos,
        p.2.categoryFrequency.foldl sumFold acc.2.2)) acc).1 = acc.1 + all.length ∧
    (all.foldl (fun acc p => (acc.1 + 1, acc.2.1 + p.2.totalVideos,
        p.2.categoryFrequency.foldl sumFold acc.2.2)) acc).2.1 =
      acc.2.1 + (all.map (fun p => p.2.totalVideos)).sum := by
  induction all generalizing acc with
  | nil => simp
  | cons p rest ih =>
    simp only [List.foldl_cons, List.length_cons, List.map_cons, List.sum_cons]
    obtain ⟨ih1, ih2⟩ :=
      ih (acc.1 + 1, acc.2.1 + p.2.totalVideos, p.2.categoryFrequency.foldl sumFold acc.2.2)
    rw [ih1, ih2]
    dsimp only
    constructor <;> omega

/-- The first frequency table of the spec's global-aggregation example. -/
def statsA : PlaylistStats :=
  { totalVideos := 4
    categoryFrequency := [("A", 3), ("B", 1)]
    dominantCategory := some "A"
    dominantCategoryId := some "1"
    dominantCount := 3
    dominantRatio := 3 / 4
    uniqueCategories := 2
    focusLabel := "Focused" }

/-- The second frequency table of the spec's global-aggregation example. -/
def statsB : PlaylistStats :=
  { totalVideos := 6
    categoryFrequency := [("A", 2), ("C", 4)]
    dominantCategory := some "C"
    dominantCategoryId := some "2"
    dominantCount := 4
    dominantRatio := 2 / 3
    uniqueCategories := 2
    focusLabel := "Focused" }

/-- Claim C6: `computeGlobalStats` returns `totalPlaylists` equal to the
number of collections, `totalVideos` equal to the sum of the per-collection
totals, and a label-keyed distribution summed across collections and
sorted descending by count; for frequency tables `{A:3,B:1}` and
`{A:2,C:4}` it yields distribution `{A:5,C:4,B:1}`, `totalVideos = 10`,
`totalPlaylists = 2`. -/
theorem computeGlobalStats_spec (allPlaylistStats : List (String × PlaylistStats)) :
    (computeGlobalStats allPlaylistStats).totalPlaylists = allPlaylistStats.length ∧
    (computeGlobalStats allPlaylistStats).totalVideos =
      (allPlaylistStats.map (fun p => p.2.totalVideos)).sum ∧
    List.Sorted (fun a b : String × Nat => b.2 ≤ a.2)
      (computeGlobalStats allPlaylistStats).categoryDistribution ∧
    computeGlobalStats [("p1", statsA), ("p2", statsB)] =
      { totalPlaylists := 2
        totalVideos := 10
        categoryDistribution := [("A", 5), ("C", 4), ("B", 1)] } := by
  refine ⟨?_, ?_, ?_, by decide⟩
  · simp only [computeGlobalStats]
    rw [(globalFold_counts allPlaylistStats (0, 0, [])).1]
    simp
  · simp only [computeGlobalStats]
    rw [(globalFold_counts allPlaylistStats (0, 0, [])).2]
    simp
  · simp only [computeGlobalStats]
    exact pairwise_stableSortBy (fun p : String × Nat => p.2) _

/-- Claim C5: `reorderPlaylists` scores each collection `1` exactly when
its `dominantCategoryId` equals the query category ID and `0` otherwise,
and returns the scored collections stably sorted descending by score:
the score-1 collections in input order followed by the score-0
collections in input order, with no secondary alphabetical key. -/
theorem reorderPlaylists_spec (videoCategoryId : String)
    (playlistData : List (String × PlaylistEntry)) :
    (∀ p ∈ playlistData, (scoreEntry videoCategoryId p).score =
        if p.2.stats.dominantCategoryId = some videoCategoryId then 1 else 0) ∧
    reorderPlaylists videoCategoryId playlistData =
      (playlistData.map (scoreEntry videoCategoryId)).filter
          (fun s : ScoredPlaylist => s.score == 1) ++
        (playlistData.map (scoreEntry videoCategoryId)).filter
          (fun s : ScoredPlaylist => s.score == 0) := by
  constructor
  · intro p _
    rfl
  · simp only [reorderPlaylists]
    refine stableSortBy_binary (fun s : ScoredPlaylist => s.score) _ ?_
    intro s hs
    rcases List.mem_map.mp hs with ⟨p, _, rfl⟩
    simp only [scoreEntry]
    split <;> simp

/-- Claim C5 witness: a collection whose `dominantCategoryId` is the query
category `"10"` is scored exactly `1`. -/
theorem reorderPlaylists_spec_witness :
    (scoreEntry "10" ("PL1",
      { title := "Music Mix"
        stats := { totalVideos := 2, categoryFrequency := [("Music", 2)],
                   dominantCategory := some "Music", dominantCategoryId := some "10",
                   dominantCount := 2, dominantRatio := 1, uniqueCategories := 1,
                   focusLabel := "Highly Focused" }
        categoryDistribution := [("10", 1)] })).score = 1 :=
  ((reorderPlaylists_spec "10" [("PL1",
      { title := "Music Mix"
        stats := { totalVideos := 2, categoryFrequency := [("Music", 2)],
                   dominantCategory := some "Music", dominantCategoryId := some "10",
                   dominantCount := 2, dominantRatio := 1, uniqueCategories := 1,
                   focusLabel := "Highly Focused" }
        categoryDistribution := [("10", 1)] })]).1 ("PL1",
      { title := "Music Mix"
        stats := { totalVideos := 2, categoryFrequency := [("Music", 2)],
                   dominantCategory := some "Music", dominantCategoryId := some "10",
                   dominantCount := 2, dominantRatio := 1, uniqueCategories := 1,
                   focusLabel := "Highly Focused" }
        categoryDistribution := [("10", 1)] })
      (List.mem_singleton_self _)).trans (by decide)

/-! ### Claim theorems about the delta reconciler -/

/-- Claim C2: the mapping returned by `getPlaylistVideoCategoriesDelta` has
as its key set exactly the set of current item IDs — every cached ID
absent from the current listing is excluded, and every listed ID is
present. -/
theorem delta_result_keys (currentIds : List String)
    (cachedVideos : List (String × VideoDetail))
    (details : String → Option FetchedInfo) (vid : String) :
    (jsGet (getPlaylistVideoCategoriesDelta currentIds cachedVideos details).videos
        vid).isSome ↔ vid ∈ currentIds := by
  simp only [getPlaylistVideoCategoriesDelta]
  rw [jsGet_foldl_jsSet currentIds (deltaEntry cachedVideos details) [] vid]
  by_cases h : vid ∈ currentIds <;> simp [h, jsGet]

/-- Claim C3: when the cache already holds every current item ID,
`getPlaylistVideoCategoriesDelta` reports `apiCalls = 0` and returns
exactly the cache restricted to the current IDs; and, in general, an ID
present in the incoming cache is never part of the `newIds` list whose
details get refetched. -/
theorem delta_idempotent (currentIds : List String)
    (cachedVideos : List (String × VideoDetail))
    (details : String → Option FetchedInfo)
    (h : ∀ vid ∈ currentIds, (jsGet cachedVideos vid).isSome) :
    (getPlaylistVideoCategoriesDelta currentIds cachedVideos details).apiCalls = 0 ∧
    (∀ vid, jsGet (getPlaylistVideoCategoriesDelta currentIds cachedVideos details).videos
        vid = if vid ∈ currentIds then jsGet cachedVideos vid else none) ∧
    (∀ (ids : List String) (cache : List (String × VideoDetail)) (vid : String),
      (jsGet cache vid).isSome →
        vid ∉ ids.filter (fun v => (jsGet cache v).isNone)) := by
  refine ⟨?_, ?_, ?_⟩
  · have hnil : currentIds.filter (fun v => (jsGet cachedVideos v).isNone) = [] := by
      rw [List.filter_eq_nil_iff]
      intro v hv
      have hs := h v hv
      simp only [Option.isNone_iff_eq_none]
      intro hnone
      rw [hnone] at hs
      simp at hs
    simp only [getPlaylistVideoCategoriesDelta, hnil]
    simp
  · intro vid
    simp only [getPlaylistVideoCategoriesDelta]
    rw [jsGet_foldl_jsSet currentIds (deltaEntry cachedVideos details) [] vid]
    by_cases hv : vid ∈ currentIds
    · rw [if_pos hv, if_pos hv]
      obtain ⟨e, he⟩ := Option.isSome_iff_exists.mp (h vid hv)
      simp [deltaEntry, he]
    · rw [if_neg hv, if_neg hv]
      simp [jsGet]
  · intro ids cache vid hsome hmem
    have := (List.mem_filter.mp hmem).2
    simp only [Option.isNone_iff_eq_none, decide_eq_true_eq] at this
    rw [this] at hsome
    simp at hsome

/-- Claim C3 witness: with one current ID that is already cached, the
reconciler reports zero detail-resolution calls. -/
theorem delta_idempotent_witness :
    (getPlaylistVideoCategoriesDelta ["v1"]
        [("v1", { categoryId := some "10", category := "Music", title := "t",
                  channelTitle := "c", thumbnail := "u" })]
        (fun _ => none)).apiCalls = 0 :=
  (delta_idempotent ["v1"]
      [("v1", { categoryId := some "10", category := "Music", title := "t",
                channelTitle := "c", thumbnail := "u" })]
      (fun _ => none) (by decide)).1

/-! ### Claim theorems about the quota-governed API client -/

/-- Claim C1: with credentials supplied, whenever the stored usage counter
is for today and its count has reached `DAILY_LIMIT - SAFETY_MARGIN`
(`10000 - 500 = 9500`), `apiCall` fails with the quota-exceeded error,
performs no network request, and leaves the stored counter unchanged. -/
theorem apiCall_quota_guard (today : String) (u : ApiUsage)
    (hasApiKey hasToken : Bool) (fetch : FetchOutcome)
    (hcred : hasApiKey = true ∨ hasToken = true)
    (hdate : u.date = today)
    (hcount : DAILY_LIMIT - SAFETY_MARGIN ≤ u.count) :
    apiCall today hasApiKey hasToken fetch (some u) =
      { result := Except.error (ApiError.quotaExceeded u.count DAILY_LIMIT)
        stored := some u
        networkCalls := 0 } := by
  have hc : (!hasApiKey && !hasToken) = false := by
    rcases hcred with h | h <;> simp [h]
  have hu : getApiUsage today (some u) = u := by
    simp [getApiUsage, hdate]
  simp only [apiCall, hc, Bool.false_eq_true, if_false, hu]
  rw [if_pos hcount]

/-- Claim C1 witness: a counter at 9500 for today blocks the next call with
the quota error, no network request, counter unchanged. -/
theorem apiCall_quota_guard_witness :
    apiCall "2026-01-15" true false FetchOutcome.ok
        (some { date := "2026-01-15", count := 9500 }) =
      { result := Except.error (ApiError.quotaExceeded 9500 10000)
        stored := some { date := "2026-01-15", count := 9500 }
        networkCalls := 0 } :=
  apiCall_quota_guard "2026-01-15" { date := "2026-01-15", count := 9500 }
    true false FetchOutcome.ok (Or.inl rfl) rfl (by decide)

theorem apiCall_stored_count_le (today : String) (k t : Bool) (f : FetchOutcome)
    (st : Option ApiUsage)
    (h : (getApiUsage today st).count ≤ DAILY_LIMIT - SAFETY_MARGIN) :
    (getApiUsage today (apiCall today k t f st).stored).count ≤
      DAILY_LIMIT - SAFETY_MARGIN := by
  by_cases hcred : (!k && !t) = true
  · simp only [apiCall, hcred, if_true]
    exact h
  · by_cases hguard : (getApiUsage today st).count ≥ DAILY_LIMIT - SAFETY_MARGIN
    · simp only [apiCall, hcred, if_false]
      rw [if_pos hguard]
      exact h
    · cases f with
      | httpError status =>
        simp only [apiCall, hcred, if_false]
        rw [if_neg hguard]
        exact h
      | ok =>
        simp only [apiCall, hcred, if_false]
        rw [if_neg hguard]
        have hcalc : getApiUsage today (incrementApiUsage today 1 st) =
            { date := today, count := (getApiUsage today st).count + 1 } := by
          simp [incrementApiUsage, getApiUsage]
        simp only [Bool.false_eq_true, if_false, hcalc]
        omega

theorem runCalls_count_le (today : String) (calls : List (Bool × Bool × FetchOutcome)) :
    ∀ stored : Option ApiUsage,
      (getApiUsage today stored).count ≤ DAILY_LIMIT - SAFETY_MARGIN →
      (getApiUsage today (runCalls today calls stored)).count ≤
        DAILY_LIMIT - SAFETY_MARGIN := by
  induction calls with
  | nil => intro stored h; exact h
  | cons c rest ih =>
    intro stored h
    simp only [runCalls, List.foldl_cons] at ih ⊢
    exact ih _ (apiCall_stored_count_le today c.1 c.2.1 c.2.2 stored h)

theorem apiCall_success_increment (today : String) (k t : Bool) (st : Option ApiUsage)
    (hcred : k = true ∨ t = true)
    (h : (getApiUsage today st).count < DAILY_LIMIT - SAFETY_MARGIN) :
    (getApiUsage today (apiCall today k t FetchOutcome.ok st).stored).count =
      (getApiUsage today st).count + 1 := by
  have hc : (!k && !t) = false := by
    rcases hcred with h' | h' <;> simp [h']
  have hguard : ¬ (getApiUsage today st).count ≥ DAILY_LIMIT - SAFETY_MARGIN :=
    not_le.mpr h
  simp only [apiCall, hc, Bool.false_eq_true, if_false]
  rw [if_neg hguard]
  simp [incrementApiUsage, getApiUsage]

/-- Claim C9: starting from a usage counter whose same-day count is at most
`DAILY_LIMIT - SAFETY_MARGIN` (9500), any finite sequence of `apiCall`
operations on the same day leaves the count at most 9500; moreover each
successful call below the threshold increments the count by exactly 1. -/
theorem apiCall_usage_bounded (today : String)
    (calls : List (Bool × Bool × FetchOutcome)) (stored : Option ApiUsage)
    (h : (getApiUsage today stored).count ≤ DAILY_LIMIT - SAFETY_MARGIN) :
    (getApiUsage today (runCalls today calls stored)).count ≤
        DAILY_LIMIT - SAFETY_MARGIN ∧
    (∀ (k t : Bool) (st : Option ApiUsage), (k = true ∨ t = true) →
      (getApiUsage today st).count < DAILY_LIMIT - SAFETY_MARGIN →
      (getApiUsage today (apiCall today k t FetchOutcome.ok st).stored).count =
        (getApiUsage today st).count + 1) :=
  ⟨runCalls_count_le today calls stored h,
   fun k t st hcred hlt => apiCall_success_increment today k t st hcred hlt⟩

/-- Claim C9 witness: two successful same-day calls starting at count 9499
leave the counter at most 9500. -/
theorem apiCall_usage_bounded_witness :
    (getApiUsage "2026-01-15" (runCalls "2026-01-15"
        [(true, false, FetchOutcome.ok), (true, false, FetchOutcome.ok)]
        (some { date := "2026-01-15", count := 9499 }))).count ≤
      DAILY_LIMIT - SAFETY_MARGIN :=
  (apiCall_usage_bounded "2026-01-15"
      [(true, false, FetchOutcome.ok), (true, false, FetchOutcome.ok)]
      (some { date := "2026-01-15", count := 9499 }) (by decide)).1

end YtExt
